import Mathlib

/-!
Verification of the posify thermal-printer command encoder (src/printer.rs).

The model is a shallow embedding: the output sink (the `File` the Rust code
writes to) is a byte list, and every printer operation is a function from the
sink to the new sink paired with the `io::Result<usize>` outcome.  A byte is a
`Nat` (all bytes emitted by the source are literals below 256, and `u8` fields
are modelled as `Nat`).  `File::write` is modelled as appending the buffer and
returning its length.

Code of the repository that is not under src/ is modelled from the spec and
marked as such: the `consts` module (byte tables), the `img::Image`
collaborator, and the text-encoding collaborator (codec + trap), which is
modelled as an abstract `encode` function carried by the printer.
-/

namespace Posify

/-- The byte sink: bytes written so far, in order. -/
abbrev Bytes := List Nat

/-- `TextPosition` from src/printer.rs. -/
inductive TextPosition
  | Off
  | Above
  | Below
  | Both
deriving DecidableEq

/-- `BarcodeType` from src/printer.rs (the numeric discriminants are unused by
the encoder and are not modelled). -/
inductive BarcodeType
  | UPCA
  | UPCE
  | EAN13
  | EAN8
  | CODE39
  | ITF
  | Code93
  | Codabar
  | Code128
  | PDF417
  | QRCode
  | Maxicode
  | GS1
deriving DecidableEq

/-- `Font` from src/printer.rs. -/
inductive Font
  | Standard
  | Compressed
  | FontA
  | FontB
deriving DecidableEq

/-- `SupportedPrinters` from src/printer.rs. -/
inductive SupportedPrinters
  | SNBC
  | P3
  | Unknown
deriving DecidableEq

/-- The error kinds the encoder produces (`io::ErrorKind::Unsupported` and
`io::ErrorKind::InvalidData`; the message strings are dropped). -/
inductive PError
  | unsupported
  | invalidData
deriving DecidableEq

deriving instance DecidableEq for Except

/-- Modelled from the spec: the `consts` module (Dialect Tables) is not under
src/; the spec describes it as "per-printer-variant constant byte sequences"
without giving the bytes of these entries, so each referenced constant is an
abstract byte sequence and every theorem quantifies over them. -/
structure Consts where
  CTL_LF : Bytes
  CTL_FF : Bytes
  CTL_CR : Bytes
  CTL_HT : Bytes
  CTL_VT : Bytes
  TXT_ALIGN_LT : Bytes
  TXT_ALIGN_CT : Bytes
  TXT_ALIGN_RT : Bytes
  TXT_FONT_A : Bytes
  TXT_FONT_B : Bytes
  TXT_FONT_C : Bytes
  TXT_NORMAL : Bytes
  TXT_2WIDTH : Bytes
  TXT_2HEIGHT : Bytes
  BITMAP_S8 : Bytes
  BITMAP_D8 : Bytes
  BITMAP_S24 : Bytes
  BITMAP_D24 : Bytes

/-- Modelled from the spec: the `img::Image` collaborator is not under src/;
the spec gives its interface as `rowChunks(chunkHeight) -> sequence of byte
rows`, `rasterBytes() -> single byte buffer`, `width`, `height`.  The field
names follow the call sites in src/printer.rs. -/
structure Image where
  width : Nat
  height : Nat
  bitimage_lines : Nat → List Bytes
  get_raster : Bytes

/-- `Barcode` from src/printer.rs (the `u8` fields `width` and `height` are
modelled as `Nat`). -/
structure Barcode where
  printer : SupportedPrinters
  width : Nat
  height : Nat
  font : Font
  kind : BarcodeType
  position : TextPosition

/-- `File::write`: append the buffer to the sink and return the byte count. -/
def writeBytes (buf : Bytes) (s : Bytes) : Bytes × Nat :=
  (s ++ buf, buf.length)

/-- `str::to_uppercase`, modelled as uppercasing the character list (it agrees
with Rust on the ASCII strings these commands compare against). -/
def toUpperStr (s : String) : String :=
  ⟨s.data.map Char.toUpper⟩

/-- `Barcode::set_width` from src/printer.rs. -/
def Barcode.set_width (b : Barcode) : Except PError Bytes :=
  match b.printer with
  | .SNBC =>
      if 2 ≤ b.width ∧ b.width ≤ 6 then .ok [0x1d, 0x77, b.width]
      else .ok [0x1d, 0x77, 0x02]
  | .P3 =>
      if 1 ≤ b.width ∧ b.width ≤ 6 then .ok [0x1d, 0x77, b.width]
      else .ok [0x1d, 0x77, 0x03]
  | .Unknown => .error .unsupported

/-- `Barcode::set_height` from src/printer.rs. -/
def Barcode.set_height (b : Barcode) : Bytes :=
  [0x1d, 0x68, b.height]

/-- `Barcode::set_text_position` from src/printer.rs. -/
def Barcode.set_text_position (b : Barcode) : Bytes :=
  match b.position with
  | .Off => [0x1d, 0x48, 0x00]
  | .Above => [0x1d, 0x48, 0x01]
  | .Below => [0x1d, 0x48, 0x02]
  | .Both => [0x1d, 0x48, 0x03]

/-- `Barcode::set_font` from src/printer.rs. -/
def Barcode.set_font (b : Barcode) : Bytes :=
  match b.font with
  | .Compressed => [0x1d, 0x66, 0x01]
  | .FontB => [0x1d, 0x66, 0x01]
  | _ => [0x1d, 0x66, 0x00]

/-- `Barcode::set_barcode_type` from src/printer.rs. -/
def Barcode.set_barcode_type (b : Barcode) : Bytes :=
  match b.kind with
  | .EAN13 => [0x1d, 0x6b, 0x02]
  | .Code128 => [0x1d, 0x6b, 0x08]
  | _ => [0x1d, 0x6b, 0x02]

/-- The `Printer` facade from src/printer.rs.  The `file` field is the sink
threaded through the operations; `codec` and `trap` (the external
text-encoding collaborator) are modelled as the abstract `encode` function. -/
structure Printer where
  printer : SupportedPrinters
  encode : String → Except PError Bytes

/-- The outcome of one printer operation: the new sink and the
`io::Result<usize>`. -/
abbrev PRes := Bytes × Except PError Nat

/-- `Printer::hwinit`: `ESC @`. -/
def Printer.hwinit (_p : Printer) (s : Bytes) : PRes :=
  let w := writeBytes [0x1b, 0x40] s
  (w.1, .ok w.2)

/-- `Printer::enable` from src/printer.rs. -/
def Printer.enable (p : Printer) (s : Bytes) : PRes :=
  match p.printer with
  | .SNBC => let w := writeBytes [0x1b, 0x3d, 0x01] s; (w.1, .ok w.2)
  | .P3 => let w := writeBytes [0x1b, 0x3d, 0x01] s; (w.1, .ok w.2)
  | .Unknown => (s, .error .unsupported)

/-- `Printer::disable` from src/printer.rs. -/
def Printer.disable (p : Printer) (s : Bytes) : PRes :=
  match p.printer with
  | .SNBC => let w := writeBytes [0x1b, 0x3d, 0x00] s; (w.1, .ok w.2)
  | .P3 => let w := writeBytes [0x1b, 0x3d, 0x02] s; (w.1, .ok w.2)
  | .Unknown => (s, .error .unsupported)

/-- `Printer::print`: encode through the text-encoding collaborator, then
write the encoded bytes (an encoding failure writes nothing). -/
def Printer.print (p : Printer) (content : String) (s : Bytes) : PRes :=
  match p.encode content with
  | .error e => (s, .error e)
  | .ok rv => let w := writeBytes rv s; (w.1, .ok w.2)

/-- The bytes `Printer::line_space` writes: `ESC 3 n` for `n` in `[0, 255]`,
the two-byte `ESC 2` reset otherwise. -/
def line_space_bytes (n : Int) : Bytes :=
  if 0 ≤ n ∧ n ≤ 255 then [0x1b, 0x33, n.toNat] else [0x1b, 0x32]

/-- `Printer::line_space` from src/printer.rs (the argument is an `i32`). -/
def Printer.line_space (_p : Printer) (n : Int) (s : Bytes) : PRes :=
  let w := writeBytes (line_space_bytes n) s
  (w.1, .ok w.2)

/-- The bytes `Printer::feed` writes: `"\n".repeat(if n < 1 then 1 else n)`. -/
def feed_bytes (n : Nat) : Bytes :=
  List.replicate (if n < 1 then 1 else n) 0x0a

/-- `Printer::feed` from src/printer.rs (the argument is a `usize`). -/
def Printer.feed (_p : Printer) (n : Nat) (s : Bytes) : PRes :=
  let w := writeBytes (feed_bytes n) s
  (w.1, .ok w.2)

/-- `Printer::control` from src/printer.rs: uppercase the argument, pick the
`consts` control byte sequence, or fail with `InvalidData` writing nothing. -/
def Printer.control (c : Consts) (_p : Printer) (ctrl : String) (s : Bytes) : PRes :=
  let u := toUpperStr ctrl
  if u = "LF" then let w := writeBytes c.CTL_LF s; (w.1, .ok w.2)
  else if u = "FF" then let w := writeBytes c.CTL_FF s; (w.1, .ok w.2)
  else if u = "CR" then let w := writeBytes c.CTL_CR s; (w.1, .ok w.2)
  else if u = "HT" then let w := writeBytes c.CTL_HT s; (w.1, .ok w.2)
  else if u = "VT" then let w := writeBytes c.CTL_VT s; (w.1, .ok w.2)
  else (s, .error .invalidData)

/-- `Printer::align` from src/printer.rs. -/
def Printer.align (c : Consts) (_p : Printer) (alignment : String) (s : Bytes) : PRes :=
  let u := toUpperStr alignment
  if u = "LT" then let w := writeBytes c.TXT_ALIGN_LT s; (w.1, .ok w.2)
  else if u = "CT" then let w := writeBytes c.TXT_ALIGN_CT s; (w.1, .ok w.2)
  else if u = "RT" then let w := writeBytes c.TXT_ALIGN_RT s; (w.1, .ok w.2)
  else (s, .error .invalidData)

/-- `Printer::font` from src/printer.rs. -/
def Printer.font (c : Consts) (_p : Printer) (family : String) (s : Bytes) : PRes :=
  let u := toUpperStr family
  if u = "A" then let w := writeBytes c.TXT_FONT_A s; (w.1, .ok w.2)
  else if u = "B" then let w := writeBytes c.TXT_FONT_B s; (w.1, .ok w.2)
  else if u = "C" then let w := writeBytes c.TXT_FONT_C s; (w.1, .ok w.2)
  else (s, .error .invalidData)

/-- `Printer::size` from src/printer.rs: always the normal-size reset, then
double width exactly when `width == 2`, then double height exactly when
`height == 2`. -/
def Printer.size (c : Consts) (_p : Printer) (width height : Nat) (s : Bytes) : PRes :=
  let w0 := writeBytes c.TXT_NORMAL s
  let r1 := if width = 2 then
      let w := writeBytes c.TXT_2WIDTH w0.1; (w.1, w0.2 + w.2)
    else (w0.1, w0.2)
  let r2 := if height = 2 then
      let w := writeBytes c.TXT_2HEIGHT r1.1; (w.1, r1.2 + w.2)
    else (r1.1, r1.2)
  (r2.1, .ok r2.2)

/-- `Printer::barcode` from src/printer.rs: build the `Barcode`, emit the five
sub-commands accumulating `n`, then the Code-Set-B selector for CODE128 only,
the raw code bytes and a single null byte (the last three writes do not add to
the returned `n`).  The `&str` code argument is modelled by its bytes. -/
def Printer.barcode (p : Printer) (code : Bytes) (kind : BarcodeType)
    (position : TextPosition) (font : Font) (width height : Nat) (s : Bytes) : PRes :=
  let bc : Barcode := ⟨p.printer, width, height, font, kind, position⟩
  match bc.set_width with
  | .error e => (s, .error e)
  | .ok wb =>
    let w1 := writeBytes wb s
    let w2 := writeBytes bc.set_height w1.1
    let w3 := writeBytes bc.set_text_position w2.1
    let w4 := writeBytes bc.set_font w3.1
    let w5 := writeBytes bc.set_barcode_type w4.1
    let n := w1.2 + w2.2 + w3.2 + w4.2 + w5.2
    let s6 := if kind = .Code128 then (writeBytes [0x7b, 0x42] w5.1).1 else w5.1
    let s7 := (writeBytes code s6).1
    let s8 := (writeBytes [0x00] s7).1
    (s8, .ok n)

/-- `Printer::full_cut` from src/printer.rs (SNBC only). -/
def Printer.full_cut (p : Printer) (s : Bytes) : PRes :=
  match p.printer with
  | .SNBC => let w := writeBytes [0x0a, 0x0a, 0x0a, 0x1d, 0x56, 0x00] s; (w.1, .ok w.2)
  | _ => (s, .error .unsupported)

/-- `Printer::partial_cut` from src/printer.rs. -/
def Printer.partial_cut (p : Printer) (s : Bytes) : PRes :=
  match p.printer with
  | .SNBC => let w := writeBytes [0x0a, 0x0a, 0x0a, 0x1d, 0x56, 0x01] s; (w.1, .ok w.2)
  | .P3 => let w := writeBytes [0x0a, 0x0a, 0x0a, 0x1b, 0x6d] s; (w.1, .ok w.2)
  | .Unknown => (s, .error .unsupported)

/-- `Printer::write_u16le`: the two little-endian bytes of `n as u16`. -/
def u16le (n : Nat) : Bytes :=
  [n % 65536 % 256, n % 65536 / 256]

/-- The body of the row loop of `Printer::bit_image`: write the density
header, the row byte count `line.len() / n` as little-endian u16, the row
bytes, then `feed(1)`, accumulating the byte count. -/
def bit_image_step (header : Bytes) (n : Nat) (acc : Bytes × Nat) (line : Bytes) :
    Bytes × Nat :=
  let w1 := writeBytes header acc.1
  let w2 := writeBytes (u16le (line.length / n)) w1.1
  let w3 := writeBytes line w2.1
  let w4 := writeBytes (feed_bytes 1) w3.1
  (w4.1, acc.2 + w1.2 + w2.2 + w3.2 + w4.2)

/-- `Printer::bit_image` from src/printer.rs: default density `"d24"`, header
chosen by the uppercased density, chunk multiplier 1 only for the exact
lowercase strings `"s8"`/`"d8"` (else 3); reset line spacing to 0, then run
`bit_image_step` over the rows the image collaborator produces at chunk
height `n * 8`. -/
def Printer.bit_image (c : Consts) (_p : Printer) (image : Image)
    (density : Option String) (s : Bytes) : PRes :=
  let density := density.getD "d24"
  let header :=
    if toUpperStr density = "S8" then c.BITMAP_S8
    else if toUpperStr density = "D8" then c.BITMAP_D8
    else if toUpperStr density = "S24" then c.BITMAP_S24
    else c.BITMAP_D24
  let n := if density = "s8" ∨ density = "d8" then 1 else 3
  let w0 := writeBytes (line_space_bytes 0) s
  let r := (image.bitimage_lines (n * 8)).foldl (bit_image_step header n) (w0.1, w0.2)
  (r.1, .ok r.2)

/-- The raster mode header of `Printer::raster` (`GS v 0 m`). -/
def raster_header (mode : Option String) : Bytes :=
  let u := toUpperStr (mode.getD "NORMAL")
  if u = "DW" then [0x1d, 0x76, 0x30, 0x01]
  else if u = "DH" then [0x1d, 0x76, 0x30, 0x02]
  else if u = "QD" then [0x1d, 0x76, 0x30, 0x03]
  else [0x1d, 0x76, 0x30, 0x00]

/-- `Printer::raster` from src/printer.rs: mode header, `(width + 7) / 8` as
little-endian u16, the height as little-endian u16, then the whole raster
buffer in one write. -/
def Printer.raster (_p : Printer) (image : Image) (mode : Option String)
    (s : Bytes) : PRes :=
  let w1 := writeBytes (raster_header mode) s
  let w2 := writeBytes (u16le ((image.width + 7) / 8)) w1.1
  let w3 := writeBytes (u16le image.height) w2.1
  let w4 := writeBytes image.get_raster w3.1
  (w4.1, .ok (w1.2 + w2.2 + w3.2 + w4.2))

/-- Modelled from the spec, following claim C3's words (for comparison with
`Printer.bit_image`): the density argument is read case-insensitively with
default D24; the rows come from the image collaborator at chunk height 8 dots
for S8/D8 and 24 dots for S24/D24; each row is emitted as the density header,
the row's byte length as a little-endian 16-bit count, the row bytes, and one
line feed, after a reset of the line spacing to zero. -/
def bit_image_claimed (c : Consts) (image : Image) (density : Option String)
    (s : Bytes) : Bytes :=
  let d := toUpperStr (density.getD "D24")
  let header :=
    if d = "S8" then c.BITMAP_S8
    else if d = "D8" then c.BITMAP_D8
    else if d = "S24" then c.BITMAP_S24
    else c.BITMAP_D24
  let chunkHeight := if d = "S8" ∨ d = "D8" then 8 else 24
  (image.bitimage_lines chunkHeight).foldl
    (fun acc line => acc ++ header ++ u16le line.length ++ line ++ [0x0a])
    (s ++ line_space_bytes 0)

/-- The round-trip scenario of claim C2 on an SNBC printer with text encoder
`enc`: `hwinit()`, `enable()`, `print("hello")`, `feed(1)`, `partial_cut()`
on an empty sink, returning the final sink. -/
def c2_run (enc : String → Except PError Bytes) : Bytes :=
  let p : Printer := ⟨.SNBC, enc⟩
  let s1 := (p.hwinit []).1
  let s2 := (p.enable s1).1
  let s3 := (p.print "hello" s2).1
  let s4 := (p.feed 1 s3).1
  (p.partial_cut s4).1

/-- A sample printer on the SNBC dialect (the encoder is immaterial where it
is used). -/
def pSNBC : Printer := ⟨.SNBC, fun _ => .ok []⟩

/-- A sample printer on the Unknown dialect. -/
def pUnknown : Printer := ⟨.Unknown, fun _ => .ok []⟩

/-- A sample instantiation of the modelled `consts` byte tables, used only to
evaluate witnesses and the counterexample at concrete inputs (the theorems
quantify over every `Consts` value). -/
def cDemo : Consts :=
  ⟨[0x0a], [0x0c], [0x0d], [0x09], [0x0b],
   [0x1b, 0x61, 0x00], [0x1b, 0x61, 0x01], [0x1b, 0x61, 0x02],
   [0x1b, 0x4d, 0x00], [0x1b, 0x4d, 0x01], [0x1b, 0x4d, 0x02],
   [0x1b, 0x21, 0x00], [0x1b, 0x21, 0x20], [0x1b, 0x21, 0x10],
   [0x1b, 0x2a, 0x00], [0x1b, 0x2a, 0x01], [0x1b, 0x2a, 0x20], [0x1b, 0x2a, 0x21]⟩

/-- A sample image collaborator: width 9, height 5, one row of 1 byte when
chunked at height 8 and one row of 3 bytes when chunked at height 24. -/
def imDemo : Image :=
  ⟨9, 5, fun chunkHeight => if chunkHeight = 8 then [[1]] else [[1, 2, 3]], [7, 7]⟩

/-- Every `set_text_position` sub-command is 3 bytes. -/
theorem set_text_position_length (b : Barcode) : b.set_text_position.length = 3 := by
  cases h : b.position <;> simp [Barcode.set_text_position, h]

/-- Every `set_font` sub-command is 3 bytes. -/
theorem set_font_length (b : Barcode) : b.set_font.length = 3 := by
  cases h : b.font <;> simp [Barcode.set_font, h]

/-- Every `set_barcode_type` sub-command is 3 bytes. -/
theorem set_barcode_type_length (b : Barcode) : b.set_barcode_type.length = 3 := by
  cases h : b.kind <;> simp [Barcode.set_barcode_type, h]

/-- On the SNBC and P3 dialects `set_width` succeeds and returns 3 bytes. -/
theorem set_width_ok (b : Barcode) (hb : b.printer ≠ .Unknown) :
    ∃ wb, b.set_width = .ok wb ∧ wb.length = 3 := by
  cases hp : b.printer with
  | SNBC =>
      simp only [Barcode.set_width, hp]
      split
      · exact ⟨_, rfl, rfl⟩
      · exact ⟨_, rfl, rfl⟩
  | P3 =>
      simp only [Barcode.set_width, hp]
      split
      · exact ⟨_, rfl, rfl⟩
      · exact ⟨_, rfl, rfl⟩
  | Unknown => exact absurd hp hb

/-- C1: for the SNBC dialect, `set_width` returns `[0x1D, 0x77, w]` for every
width `w` with `2 ≤ w ≤ 6` and `[0x1D, 0x77, 0x02]` for every width outside
that range; for the P3 dialect it returns `[0x1D, 0x77, w]` for `1 ≤ w ≤ 6`
and `[0x1D, 0x77, 0x03]` otherwise; for the Unknown dialect it returns an
UnsupportedOperation error for every width (`w ≤ 255` is the `u8` domain). -/
theorem set_width_resolution (w h : Nat) (f : Font) (k : BarcodeType)
    (tp : TextPosition) (_hw : w ≤ 255) :
    Barcode.set_width ⟨.SNBC, w, h, f, k, tp⟩ =
      .ok (if 2 ≤ w ∧ w ≤ 6 then [0x1d, 0x77, w] else [0x1d, 0x77, 0x02]) ∧
    Barcode.set_width ⟨.P3, w, h, f, k, tp⟩ =
      .ok (if 1 ≤ w ∧ w ≤ 6 then [0x1d, 0x77, w] else [0x1d, 0x77, 0x03]) ∧
    Barcode.set_width ⟨.Unknown, w, h, f, k, tp⟩ = .error .unsupported := by
  refine ⟨?_, ?_, rfl⟩ <;>
    · simp only [Barcode.set_width]
      split <;> rfl

/-- Witness for C1 at the concrete out-of-range width 7. -/
theorem set_width_resolution_witness :
    Barcode.set_width ⟨.SNBC, 7, 1, .Standard, .EAN13, .Off⟩ =
      .ok [0x1d, 0x77, 0x02] :=
  ((set_width_resolution 7 1 .Standard .EAN13 .Off (by decide)).1).trans (by decide)

/-- C7: for every integer `n`, `line_space` writes `[0x1B, 0x33, n]` when
`0 ≤ n ≤ 255` and the 2-byte reset `[0x1B, 0x32]` otherwise, and never
returns an error (the result is the count of the bytes written). -/
theorem line_space_fallback (p : Printer) (n : Int) (s : Bytes) :
    (Printer.line_space p n s).1 =
      s ++ (if 0 ≤ n ∧ n ≤ 255 then [0x1b, 0x33, n.toNat] else [0x1b, 0x32]) ∧
    (Printer.line_space p n s).2 = .ok (if 0 ≤ n ∧ n ≤ 255 then 3 else 2) := by
  constructor
  · simp [Printer.line_space, line_space_bytes, writeBytes]
  · simp only [Printer.line_space, line_space_bytes, writeBytes]
    split <;> rfl

/-- C8: `feed(n)` writes exactly `max(n, 1)` line-terminator bytes `0x0A` (and
returns that count); in particular `feed(0)` writes one and `feed(3)` writes
three. -/
theorem feed_minimum (p : Printer) (n : Nat) (s : Bytes) :
    (Printer.feed p n s).1 = s ++ List.replicate (max n 1) 0x0a ∧
    (Printer.feed p n s).2 = .ok (max n 1) ∧
    (Printer.feed p 0 s).1 = s ++ [0x0a] ∧
    (Printer.feed p 3 s).1 = s ++ [0x0a, 0x0a, 0x0a] := by
  have hb : feed_bytes n = List.replicate (max n 1) 0x0a := by
    unfold feed_bytes
    congr 1
    split <;> omega
  refine ⟨?_, ?_, ?_, ?_⟩
  · simp [Printer.feed, writeBytes, hb]
  · simp [Printer.feed, writeBytes, hb]
  · simp [Printer.feed, feed_bytes, writeBytes]
  · simp [Printer.feed, feed_bytes, writeBytes, List.replicate]

/-- C9: `size` always writes the normal-size reset block first, then the
double-width block exactly when `width = 2`, then the double-height block
exactly when `height = 2`, and nothing else; so `size(2,2)` emits the three
blocks in that order and `size(1,1)` only the reset. -/
theorem size_composition (c : Consts) (p : Printer) (width height : Nat)
    (s : Bytes) :
    (Printer.size c p width height s).1 =
      s ++ c.TXT_NORMAL ++ (if width = 2 then c.TXT_2WIDTH else [])
        ++ (if height = 2 then c.TXT_2HEIGHT else []) ∧
    (Printer.size c p 2 2 s).1 = s ++ c.TXT_NORMAL ++ c.TXT_2WIDTH ++ c.TXT_2HEIGHT ∧
    (Printer.size c p 1 1 s).1 = s ++ c.TXT_NORMAL := by
  refine ⟨?_, ?_, ?_⟩
  · simp only [Printer.size, writeBytes]
    split <;> split <;> simp
  · simp [Printer.size, writeBytes]
  · simp [Printer.size, writeBytes]

/-- C2: on an SNBC printer, `hwinit()`, `enable()`, `print("hello")`,
`feed(1)`, `partial_cut()` in order write to the sink exactly the
concatenation `1B 40`, `1B 3D 01`, the encoding of "hello", `0A`, and
`0A 0A 0A 1D 56 01`. -/
theorem roundtrip_snbc (enc : String → Except PError Bytes) (bs : Bytes)
    (henc : enc "hello" = .ok bs) :
    c2_run enc =
      [0x1b, 0x40] ++ [0x1b, 0x3d, 0x01] ++ bs ++ [0x0a]
        ++ [0x0a, 0x0a, 0x0a, 0x1d, 0x56, 0x01] := by
  simp [c2_run, Printer.hwinit, Printer.enable, Printer.print, henc,
    Printer.feed, feed_bytes, Printer.partial_cut, writeBytes]

/-- Witness for C2 with the UTF-8 encoder on "hello". -/
theorem roundtrip_snbc_witness :
    c2_run (fun _ => .ok [0x68, 0x65, 0x6c, 0x6c, 0x6f]) =
      [0x1b, 0x40, 0x1b, 0x3d, 0x01, 0x68, 0x65, 0x6c, 0x6c, 0x6f, 0x0a,
        0x0a, 0x0a, 0x0a, 0x1d, 0x56, 0x01] :=
  (roundtrip_snbc (fun _ => .ok [0x68, 0x65, 0x6c, 0x6c, 0x6f]) _ rfl).trans (by decide)

/-- C4: whenever `set_width` succeeds (it does on the SNBC and P3 dialects),
`barcode` writes the five 3-byte prologue sub-commands in the fixed order
width, height, text position, font, type, then the Code-Set-B selector
`7B 42` immediately before the code bytes exactly when the kind is CODE128
(no selector is emitted for any other kind), then the code bytes and a single
terminating null byte. -/
theorem barcode_code128_selector (p : Printer) (code : Bytes)
    (kind : BarcodeType) (position : TextPosition) (font : Font)
    (width height : Nat) (s : Bytes) (wb : Bytes)
    (hwb : Barcode.set_width ⟨p.printer, width, height, font, kind, position⟩ = .ok wb) :
    (Printer.barcode p code kind position font width height s).1 =
      s ++ wb
        ++ Barcode.set_height ⟨p.printer, width, height, font, kind, position⟩
        ++ Barcode.set_text_position ⟨p.printer, width, height, font, kind, position⟩
        ++ Barcode.set_font ⟨p.printer, width, height, font, kind, position⟩
        ++ Barcode.set_barcode_type ⟨p.printer, width, height, font, kind, position⟩
        ++ (if kind = .Code128 then [0x7b, 0x42] else []) ++ code ++ [0x00] := by
  simp only [Printer.barcode, hwb, writeBytes]
  split <;> simp

/-- Witness for C4: a CODE128 barcode "12" on the SNBC dialect. -/
theorem barcode_code128_selector_witness :
    (Printer.barcode pSNBC [0x31, 0x32] .Code128 .Below .FontB 3 100 []).1 =
      [0x1d, 0x77, 3] ++ [0x1d, 0x68, 100] ++ [0x1d, 0x48, 2] ++ [0x1d, 0x66, 1]
        ++ [0x1d, 0x6b, 8] ++ [0x7b, 0x42] ++ [0x31, 0x32] ++ [0x00] :=
  (barcode_code128_selector pSNBC [0x31, 0x32] .Code128 .Below .FontB 3 100 []
    [0x1d, 0x77, 3] (by decide)).trans (by decide)

/-- C5: operations that fail with UnsupportedOperation (`enable`, `disable`,
`full_cut`, `partial_cut`, `barcode` on the Unknown dialect) or with
InvalidArgument (`control`, `align`, `font` on an unrecognized string) leave
the sink exactly as it was. -/
theorem error_atomicity (c : Consts) (p q : Printer) (ctrl al fam : String)
    (code : Bytes) (kind : BarcodeType) (position : TextPosition) (font : Font)
    (width height : Nat) (s : Bytes)
    (hp : p.printer = .Unknown)
    (hctrl : toUpperStr ctrl ≠ "LF" ∧ toUpperStr ctrl ≠ "FF" ∧
      toUpperStr ctrl ≠ "CR" ∧ toUpperStr ctrl ≠ "HT" ∧ toUpperStr ctrl ≠ "VT")
    (hal : toUpperStr al ≠ "LT" ∧ toUpperStr al ≠ "CT" ∧ toUpperStr al ≠ "RT")
    (hfam : toUpperStr fam ≠ "A" ∧ toUpperStr fam ≠ "B" ∧ toUpperStr fam ≠ "C") :
    Printer.enable p s = (s, .error .unsupported) ∧
    Printer.disable p s = (s, .error .unsupported) ∧
    Printer.full_cut p s = (s, .error .unsupported) ∧
    Printer.partial_cut p s = (s, .error .unsupported) ∧
    Printer.barcode p code kind position font width height s = (s, .error .unsupported) ∧
    Printer.control c q ctrl s = (s, .error .invalidData) ∧
    Printer.align c q al s = (s, .error .invalidData) ∧
    Printer.font c q fam s = (s, .error .invalidData) := by
  obtain ⟨h1, h2, h3, h4, h5⟩ := hctrl
  obtain ⟨a1, a2, a3⟩ := hal
  obtain ⟨f1, f2, f3⟩ := hfam
  refine ⟨?_, ?_, ?_, ?_, ?_, ?_, ?_, ?_⟩
  · simp [Printer.enable, hp]
  · simp [Printer.disable, hp]
  · simp [Printer.full_cut, hp]
  · simp [Printer.partial_cut, hp]
  · simp [Printer.barcode, Barcode.set_width, hp]
  · simp [Printer.control, h1, h2, h3, h4, h5]
  · simp [Printer.align, a1, a2, a3]
  · simp [Printer.font, f1, f2, f3]

/-- Witness for C5: the Unknown-dialect `enable` and an invalid control
string on a non-empty sink leave the sink untouched. -/
theorem error_atomicity_witness :
    Printer.enable pUnknown [0x07] = ([0x07], .error .unsupported) ∧
    Printer.control cDemo pSNBC "XX" [0x07] = ([0x07], .error .invalidData) :=
  have h := error_atomicity cDemo pUnknown pSNBC "XX" "XX" "XX" [] .EAN13 .Off
    .Standard 0 0 [0x07] rfl (by decide) (by decide) (by decide)
  ⟨h.1, h.2.2.2.2.2.1⟩

/-- C6: `raster` emits the 4-byte mode header, the width in bytes
`(width + 7) / 8` (which is the least number of whole bytes covering the
width, that is `ceil(width / 8)`) as a little-endian 16-bit value, the height
as a little-endian 16-bit value, then the full raster buffer in one write;
a bitmap of width 9 yields a width-in-bytes field of 2. -/
theorem raster_header_arithmetic (p : Printer) (image : Image)
    (mode : Option String) (s : Bytes) :
    (Printer.raster p image mode s).1 =
      s ++ raster_header mode ++ u16le ((image.width + 7) / 8)
        ++ u16le image.height ++ image.get_raster ∧
    (raster_header mode).length = 4 ∧
    image.width ≤ 8 * ((image.width + 7) / 8) ∧
    8 * ((image.width + 7) / 8) < image.width + 8 ∧
    (image.width = 9 → u16le ((image.width + 7) / 8) = [2, 0]) := by
  refine ⟨?_, ?_, ?_, ?_, ?_⟩
  · simp [Printer.raster, writeBytes]
  · simp only [raster_header]
    split_ifs <;> rfl
  · omega
  · omega
  · intro h9
    rw [h9]
    decide

/-- Witness for C6: the demo 9-dot-wide image has a width-in-bytes field
of 2. -/
theorem raster_header_arithmetic_witness :
    u16le ((Image.width imDemo + 7) / 8) = [2, 0] :=
  (raster_header_arithmetic pSNBC imDemo none []).2.2.2.2 rfl

/-- C10: on a dialect where `set_width` succeeds, the byte count `barcode`
returns counts only the five 3-byte prologue sub-commands (15 bytes) and
excludes the optional Code-Set-B selector, the code payload and the
terminating null byte, so it is strictly below the bytes actually written
whenever the code is non-empty. -/
theorem barcode_count_prologue_only (p : Printer) (code : Bytes)
    (kind : BarcodeType) (position : TextPosition) (font : Font)
    (width height : Nat) (s : Bytes) (hp : p.printer ≠ .Unknown) :
    (Printer.barcode p code kind position font width height s).2 = .ok 15 ∧
    ((Printer.barcode p code kind position font width height s).1).length =
      s.length + 15 + (if kind = .Code128 then 2 else 0) + code.length + 1 ∧
    (code ≠ [] →
      15 < ((Printer.barcode p code kind position font width height s).1).length
        - s.length) := by
  obtain ⟨wb, hwb, hlen⟩ :=
    set_width_ok ⟨p.printer, width, height, font, kind, position⟩ hp
  have htp := set_text_position_length ⟨p.printer, width, height, font, kind, position⟩
  have hf := set_font_length ⟨p.printer, width, height, font, kind, position⟩
  have hbt := set_barcode_type_length ⟨p.printer, width, height, font, kind, position⟩
  refine ⟨?_, ?_, ?_⟩
  · simp [Printer.barcode, hwb, writeBytes, hlen, htp, hf, hbt, Barcode.set_height]
  · simp only [Printer.barcode, hwb, writeBytes]
    split <;>
      simp [List.length_append, hlen, htp, hf, hbt, Barcode.set_height] <;> omega
  · intro hc
    have hcl : 0 < code.length := List.length_pos.mpr hc
    simp only [Printer.barcode, hwb, writeBytes]
    split <;>
      simp [List.length_append, hlen, htp, hf, hbt, Barcode.set_height] <;> omega

/-- Witness for C10: an EAN13 barcode "12" on the SNBC dialect returns 15
although 18 bytes are written. -/
theorem barcode_count_prologue_only_witness :
    (Printer.barcode pSNBC [0x31, 0x32] .EAN13 .Off .Standard 3 100 []).2 = .ok 15 ∧
    15 < ((Printer.barcode pSNBC [0x31, 0x32] .EAN13 .Off .Standard 3 100 []).1).length :=
  have h := barcode_count_prologue_only pSNBC [0x31, 0x32] .EAN13 .Off .Standard
    3 100 [] (by decide)
  ⟨h.1, by simpa using h.2.2 (by decide)⟩

/-- Unrolling the row loop of `bit_image`: the sink grows by one block of
header, count, row and line feed per row. -/
theorem bit_image_foldl_fst (header : Bytes) (n : Nat) (lines : List Bytes)
    (s0 : Bytes) (n0 : Nat) :
    (lines.foldl (bit_image_step header n) (s0, n0)).1 =
      s0 ++ (lines.map
        (fun line => header ++ u16le (line.length / n) ++ line ++ [0x0a])).flatten := by
  induction lines generalizing s0 n0 with
  | nil => simp
  | cons l ls ih =>
      simp [List.foldl_cons, bit_image_step, writeBytes, feed_bytes, ih,
        List.append_assoc]

/-- C3 counterexample: with density "S8" (uppercase), `bit_image` does not
produce what claim C3 describes — the rows are taken at chunk height 24, not
8, because the chunk multiplier compares the density string case-sensitively
against lowercase "s8"/"d8" (and the emitted 16-bit count is the row length
divided by the multiplier, not the raw row length). -/
theorem bit_image_chunking_counterexample :
    (Printer.bit_image cDemo pSNBC imDemo (some "S8") []).1 ≠
      bit_image_claimed cDemo imDemo (some "S8") [] := by decide

/-- C3 amended: `bit_image` first resets line spacing to zero, selects the
density header by a case-insensitive match (default D24), but requests the
rows at chunk height 8 dots only when the density argument is exactly the
lowercase string "s8" or "d8" (any other value, uppercase "S8"/"D8"
included, uses 24), and for each row emits the density header, the row's
byte length divided by the chunk multiplier (1 for lowercase "s8"/"d8",
else 3) as a little-endian 16-bit count, the row bytes, and one line feed. -/
theorem bit_image_chunking_amended (c : Consts) (p : Printer) (image : Image)
    (density : Option String) (s : Bytes) :
    (Printer.bit_image c p image density s).1 =
      s ++ [0x1b, 0x33, 0]
        ++ ((image.bitimage_lines
              ((if density.getD "d24" = "s8" ∨ density.getD "d24" = "d8"
                then 1 else 3) * 8)).map
            (fun line =>
              (if toUpperStr (density.getD "d24") = "S8" then c.BITMAP_S8
               else if toUpperStr (density.getD "d24") = "D8" then c.BITMAP_D8
               else if toUpperStr (density.getD "d24") = "S24" then c.BITMAP_S24
               else c.BITMAP_D24)
                ++ u16le (line.length /
                    (if density.getD "d24" = "s8" ∨ density.getD "d24" = "d8"
                     then 1 else 3))
                ++ line ++ [0x0a])).flatten := by
  have hls : line_space_bytes 0 = [0x1b, 0x33, 0] := by decide
  simp only [Printer.bit_image, writeBytes, bit_image_foldl_fst, hls,
    List.append_assoc]

end Posify
